import Mathlib

/-!
Verification of the layout-reconstruction engine of a PDF → PPTX converter
(`app.py`).  The Python source is shallowly embedded: pure helpers become
Lean functions over `ℚ` / `ℕ` / `List Char`, the per-page pipeline of
`convert_edit_mode` becomes a function into `Except String _` (a Python
exception aborts the whole conversion), and the numpy raster manipulation of
`render_page_without_text` becomes an explicit `Raster` transformer.
-/

namespace PdfToPptx

/-- Python `int(...)` applied to an exact rational: truncation toward zero. -/
def pyTrunc (q : ℚ) : ℤ := q.num.tdiv q.den

/-- The whitespace characters stripped by Python `str.strip()` (ASCII set;
the embedding only ever meets ASCII text). -/
def isPySpace (c : Char) : Bool :=
  c = ' ' || c = '\t' || c = '\n' || c = '\r' || c = '\x0b' || c = '\x0c'

/-- Remove trailing whitespace, `"x ".rstrip()`. -/
def rstrip (l : List Char) : List Char :=
  (l.reverse.dropWhile isPySpace).reverse

/-- Python `str.strip()` over an explicit character list. -/
def pyStrip (l : List Char) : List Char :=
  rstrip (l.dropWhile isPySpace)

/-- Characters of a string literal. -/
def str (s : String) : List Char := s.data

/-- The prefix of `l` before the first occurrence of `c`
(Python `l.split(c)[0]`). -/
def takeBefore (c : Char) (l : List Char) : List Char :=
  l.takeWhile (· ≠ c)

/-- The suffix of `l` after the first occurrence of `c`
(Python `l.split(c, 1)[1]`, assuming `c ∈ l`). -/
def afterFirst (c : Char) (l : List Char) : List Char :=
  (l.dropWhile (· ≠ c)).tail

/-- `clean_font_name` (app.py:133-144): strip the subset prefix before `+`,
drop everything from the first `,` and the first `-`, strip whitespace, and
fall back to `"Calibri"` for an empty input or an empty cleaning result. -/
def clean_font_name (raw_name : List Char) : List Char :=
  if raw_name = [] then str "Calibri"
  else
    let r1 := if raw_name.contains '+' then afterFirst '+' raw_name else raw_name
    let r2 := takeBefore ',' r1
    let r3 := takeBefore '-' r2
    let r4 := pyStrip r3
    if r4 = [] then str "Calibri" else r4

/-- The cleaning body of `clean_font_name` on a non-empty input, before the
final `or "Calibri"` fallback. -/
def cleanCore (s : List Char) : List Char :=
  pyStrip (takeBefore '-' (takeBefore ',' (if s.contains '+' then afterFirst '+' s else s)))

lemma clean_font_name_eq (s : List Char) :
    clean_font_name s =
      if s = [] then str "Calibri"
      else if cleanCore s = [] then str "Calibri" else cleanCore s := rfl

lemma mem_takeBefore_ne {c x : Char} {l : List Char}
    (h : x ∈ takeBefore c l) : x ≠ c := by
  simpa using List.mem_takeWhile_imp h

lemma takeBefore_eq_self {c : Char} {l : List Char} (h : c ∉ l) :
    takeBefore c l = l := by
  rw [takeBefore, List.takeWhile_eq_self_iff]
  intro x hx
  have hxc : x ≠ c := fun e => h (e ▸ hx)
  simpa using hxc

lemma dropWhile_idem (p : Char → Bool) :
    ∀ l : List Char, (l.dropWhile p).dropWhile p = l.dropWhile p
  | [] => rfl
  | a :: t => by
    by_cases h : p a
    · simp [List.dropWhile_cons, h, dropWhile_idem p t]
    · simp [List.dropWhile_cons, h]

lemma dropWhile_eq_self_of_initial (p : Char → Bool) {x z : List Char}
    (hz : z <+: x) (hx : x.dropWhile p = x) : z.dropWhile p = z := by
  cases z with
  | nil => rfl
  | cons a t =>
    obtain ⟨r, hr⟩ := hz
    have hax : x = a :: (t ++ r) := by rw [← hr]; rfl
    have hpa : ¬ p a = true := by
      intro hpa
      have hlt : x.dropWhile p = (t ++ r).dropWhile p := by
        rw [hax, List.dropWhile_cons, if_pos hpa]
      have h1 : x.length ≤ (t ++ r).length := by
        conv_lhs => rw [← hx, hlt]
        exact (List.dropWhile_sublist p).length_le
      rw [hax] at h1
      simp at h1
    rw [List.dropWhile_cons, if_neg hpa]

lemma rstrip_initial (l : List Char) : rstrip l <+: l := by
  have h : (l.reverse.dropWhile isPySpace) <:+ l.reverse := List.dropWhile_suffix _
  have h2 : (l.reverse.dropWhile isPySpace).reverse <+: l.reverse.reverse :=
    List.reverse_prefix.mpr h
  rwa [List.reverse_reverse] at h2

lemma rstrip_idem (l : List Char) : rstrip (rstrip l) = rstrip l := by
  unfold rstrip
  rw [List.reverse_reverse, dropWhile_idem]

lemma pyStrip_idem (l : List Char) : pyStrip (pyStrip l) = pyStrip l := by
  unfold pyStrip
  have h1 : (l.dropWhile isPySpace).dropWhile isPySpace = l.dropWhile isPySpace :=
    dropWhile_idem _ _
  have h2 : (rstrip (l.dropWhile isPySpace)).dropWhile isPySpace
      = rstrip (l.dropWhile isPySpace) :=
    dropWhile_eq_self_of_initial _ (rstrip_initial _) h1
  rw [h2, rstrip_idem]

lemma pyStrip_sublist (l : List Char) : (pyStrip l).Sublist l :=
  ((rstrip_initial (l.dropWhile isPySpace)).sublist).trans (List.dropWhile_sublist _)

lemma not_mem_afterFirst_of_count_le_one {l : List Char}
    (h : l.count '+' ≤ 1) : '+' ∉ afterFirst '+' l := by
  induction l with
  | nil => simp [afterFirst]
  | cons a t ih =>
    by_cases ha : a = '+'
    · subst ha
      have hc : t.count '+' = 0 := by
        have := h
        simp [List.count_cons] at this
        omega
      have hnot : '+' ∉ t := List.count_eq_zero.mp hc
      have : afterFirst '+' ('+' :: t) = t := by
        simp [afterFirst, List.dropWhile_cons]
      rw [this]
      exact hnot
    · have hct : t.count '+' ≤ 1 := by
        have := h
        simp [List.count_cons, ha] at this ⊢
        omega
      have : afterFirst '+' (a :: t) = afterFirst '+' t := by
        simp [afterFirst, List.dropWhile_cons, ha]
      rw [this]
      exact ih hct

lemma contains_eq_false_of_not_mem {l : List Char} {a : Char} (h : a ∉ l) :
    l.contains a = false := by
  simpa using h

lemma cleanCore_no_plus {s : List Char} (h : s.count '+' ≤ 1) :
    '+' ∉ cleanCore s := by
  intro hmem
  have h1 : '+' ∈ (if s.contains '+' then afterFirst '+' s else s) := by
    have hsub : (cleanCore s).Sublist
        (takeBefore ',' (if s.contains '+' then afterFirst '+' s else s)) :=
      (pyStrip_sublist _).trans (List.takeWhile_sublist _)
    exact (hsub.trans (List.takeWhile_sublist _)).subset hmem
  by_cases hc : s.contains '+'
  · rw [if_pos hc] at h1
    exact not_mem_afterFirst_of_count_le_one h h1
  · rw [if_neg hc] at h1
    exact (by simpa using hc : '+' ∉ s) h1

lemma cleanCore_no_comma (s : List Char) : ',' ∉ cleanCore s := by
  intro hmem
  have h1 : ',' ∈ takeBefore ',' (if s.contains '+' then afterFirst '+' s else s) :=
    ((pyStrip_sublist _).trans (List.takeWhile_sublist _)).subset hmem
  exact mem_takeBefore_ne h1 rfl

lemma cleanCore_no_dash (s : List Char) : '-' ∉ cleanCore s := by
  intro hmem
  have h1 : '-' ∈ takeBefore '-' (takeBefore ',' (if s.contains '+' then afterFirst '+' s else s)) :=
    (pyStrip_sublist _).subset hmem
  exact mem_takeBefore_ne h1 rfl

lemma cleanCore_stripped (s : List Char) : pyStrip (cleanCore s) = cleanCore s := by
  unfold cleanCore
  exact pyStrip_idem _

lemma clean_font_name_idem_of_count {s : List Char} (h : s.count '+' ≤ 1) :
    clean_font_name (clean_font_name s) = clean_font_name s := by
  rw [clean_font_name_eq s]
  by_cases h0 : s = []
  · rw [if_pos h0]; decide
  · rw [if_neg h0]
    by_cases h4 : cleanCore s = []
    · rw [if_pos h4]; decide
    · rw [if_neg h4]
      have hplus : '+' ∉ cleanCore s := cleanCore_no_plus h
      have hcomma : ',' ∉ cleanCore s := cleanCore_no_comma s
      have hdash : '-' ∉ cleanCore s := cleanCore_no_dash s
      rw [clean_font_name_eq (cleanCore s), if_neg h4]
      have hcore : cleanCore (cleanCore s) = cleanCore s := by
        have hdef : cleanCore (cleanCore s) =
            pyStrip (takeBefore '-' (takeBefore ','
              (if (cleanCore s).contains '+' then afterFirst '+' (cleanCore s)
               else cleanCore s))) := rfl
        rw [hdef, contains_eq_false_of_not_mem hplus]
        simp only [Bool.false_eq_true, if_false]
        rw [takeBefore_eq_self hcomma, takeBefore_eq_self hdash, cleanCore_stripped]
      rw [hcore, if_neg h4]

/-- Claim C5: `clean_font_name` is total over all strings; it maps
`"ABCDEF+Arial,Bold-Italic"` to `"Arial"`, `""` to the fallback `"Calibri"`,
and `"Arial"` to itself; and (amended) it is idempotent on every input that
contains at most one `+` character. -/
theorem claim_C5_font_cleaning :
    clean_font_name (str "ABCDEF+Arial,Bold-Italic") = str "Arial" ∧
    clean_font_name (str "") = str "Calibri" ∧
    clean_font_name (str "Arial") = str "Arial" ∧
    ∀ s : List Char, s.count '+' ≤ 1 →
      clean_font_name (clean_font_name s) = clean_font_name s :=
  ⟨by decide, by decide, by decide, fun _ h => clean_font_name_idem_of_count h⟩

/-- Witness for C5: the idempotence part applied at a concrete subset-tagged
font name with a single `+`. -/
theorem claim_C5_witness :
    (str "ABCDEF+Times,Bold").count '+' ≤ 1 ∧
    clean_font_name (clean_font_name (str "ABCDEF+Times,Bold")) =
      clean_font_name (str "ABCDEF+Times,Bold") :=
  ⟨by decide, claim_C5_font_cleaning.2.2.2 _ (by decide)⟩

/-- Counterexample for C5 as stated: `clean_font_name` is not idempotent on
every string — a name with two `+` delimiters is cleaned differently the
second time (`"AB+CD+EF"` → `"CD+EF"` → `"EF"`). -/
theorem claim_C5_counterexample :
    clean_font_name (clean_font_name (str "AB+CD+EF")) ≠
      clean_font_name (str "AB+CD+EF") := by decide

/-- `color_int_to_rgb` (app.py:125-130): split a packed `0xRRGGBB` integer
into its three byte channels. -/
def color_int_to_rgb (color_int : ℕ) : ℕ × ℕ × ℕ :=
  ((color_int >>> 16) &&& 0xFF, (color_int >>> 8) &&& 0xFF, color_int &&& 0xFF)

/-- `is_background_image` (app.py:398-403): an image whose bbox area exceeds
`threshold` (80 %) of the page area counts as background.  The area ratio is
only computed after the `page_area > 0` guard, exactly as the Python
short-circuits. -/
def is_background_image (bbox : ℚ × ℚ × ℚ × ℚ) (page_w page_h threshold : ℚ) :
    Bool :=
  let x0 := bbox.1; let y0 := bbox.2.1; let x1 := bbox.2.2.1; let y1 := bbox.2.2.2
  let img_area := max 0 (x1 - x0) * max 0 (y1 - y0)
  let page_area := page_w * page_h
  decide (page_area > 0) && decide (img_area / page_area > threshold)

/-- Claim C8: `is_background_image` is a pure function of the bbox-area to
page-area ratio, compared strictly (`>`) against the 0.80 threshold: with
positive page area it answers true iff the ratio strictly exceeds 80 %; an
image at exactly 80 % of a 10×10 page classifies as discrete (false) and one
at 81 % as background (true). -/
theorem claim_C8_classifier_boundary :
    (∀ (bbox : ℚ × ℚ × ℚ × ℚ) (pw ph : ℚ), 0 < pw * ph →
      (is_background_image bbox pw ph (80/100) = true ↔
        max 0 (bbox.2.2.1 - bbox.1) * max 0 (bbox.2.2.2 - bbox.2.1) / (pw * ph)
          > 80/100)) ∧
    is_background_image (0, 0, 10, 8) 10 10 (80/100) = false ∧
    is_background_image (0, 0, 10, 81/10) 10 10 (80/100) = true := by
  refine ⟨?_, by with_unfolding_all decide, by with_unfolding_all decide⟩
  intro bbox pw ph hpos
  simp [is_background_image, hpos]

/-- Witness for C8: the ratio characterization applied to a 10×9 image on a
10×10 page (ratio 90 %). -/
theorem claim_C8_witness :
    (0:ℚ) < 10 * 10 ∧
    (is_background_image (0, 0, 10, 9) 10 10 (80/100) = true ↔
      max 0 (((0:ℚ), (0:ℚ), (10:ℚ), (9:ℚ)).2.2.1 - ((0:ℚ), (0:ℚ), (10:ℚ), (9:ℚ)).1) *
        max 0 (((0:ℚ), (0:ℚ), (10:ℚ), (9:ℚ)).2.2.2 - ((0:ℚ), (0:ℚ), (10:ℚ), (9:ℚ)).2.1) /
          ((10:ℚ) * 10) > 80/100) :=
  ⟨by norm_num, claim_C8_classifier_boundary.1 (0, 0, 10, 9) 10 10 (by norm_num)⟩

/-! ### Rasters and the erase phase of `render_page_without_text`
(app.py:158-247) -/

/-- An RGB raster: dimensions plus a pixel map (`np` array of shape
`(h, w, 3)`); out-of-range coordinates are never read by the embedded code. -/
structure Raster where
  h : ℕ
  w : ℕ
  pix : ℕ → ℕ → ℕ × ℕ × ℕ

/-- All-one-color raster. -/
def uniformRaster (h w : ℕ) (col : ℕ × ℕ × ℕ) : Raster := ⟨h, w, fun _ _ => col⟩

/-- Ascending insertion into a sorted list. -/
def insertSorted (x : ℕ) : List ℕ → List ℕ
  | [] => [x]
  | y :: ys => if x ≤ y then x :: y :: ys else y :: insertSorted x ys

/-- Ascending sort (what `np.median` does internally). -/
def sortAsc : List ℕ → List ℕ
  | [] => []
  | x :: xs => insertSorted x (sortAsc xs)

/-- `np.median` on one channel followed by `astype(np.uint8)`: the middle
element of the sorted values for odd length, else the truncated mean of the
two middle elements. -/
def medChan (l : List ℕ) : ℕ :=
  if l.length % 2 = 1 then (sortAsc l).getD (l.length / 2) 0
  else ((sortAsc l).getD (l.length / 2 - 1) 0 + (sortAsc l).getD (l.length / 2) 0) / 2

/-- Per-channel median of a pixel list (`np.median(all_pixels, axis=0)`). -/
def medianRGB (l : List (ℕ × ℕ × ℕ)) : ℕ × ℕ × ℕ :=
  (medChan (l.map (·.1)), medChan (l.map (·.2.1)), medChan (l.map (·.2.2)))

/-- Row-major pixel list of rectangle rows `[r0, r1)` × cols `[c0, c1)`
(`img_arr[r0:r1, c0:c1].reshape(-1, 3)`). -/
def stripPixels (img : Raster) (r0 r1 c0 c1 : ℕ) : List (ℕ × ℕ × ℕ) :=
  ((List.range (r1 - r0)).map (fun i =>
    (List.range (c1 - c0)).map (fun j => img.pix (r0 + i) (c0 + j)))).flatten

/-- The padded, clamped pixel rectangle of one text box. -/
structure PixRegion where
  px0 : ℕ
  py0 : ℕ
  px1 : ℕ
  py1 : ℕ
deriving DecidableEq

/-- Pixel-space region of a bbox at rendering zoom `dpi/72` with padding
`max(1, int(1.5*zoom))`, clamped to the raster (app.py:179-185). -/
def pixelRegion (dpi h w : ℕ) (bbox : ℚ × ℚ × ℚ × ℚ) : PixRegion :=
  let zoom : ℚ := (dpi : ℚ) / 72
  let pad : ℤ := max 1 (pyTrunc (3/2 * zoom))
  { px0 := (max 0 (pyTrunc (bbox.1 * zoom) - pad)).toNat
    py0 := (max 0 (pyTrunc (bbox.2.1 * zoom) - pad)).toNat
    px1 := (min (w : ℤ) (pyTrunc (bbox.2.2.1 * zoom) + pad)).toNat
    py1 := (min (h : ℤ) (pyTrunc (bbox.2.2.2 * zoom) + pad)).toNat }

/-- Border strip thickness `max(3, int(4*zoom))` (app.py:191). -/
def sampleSize (dpi : ℕ) : ℕ := (max 3 (pyTrunc (4 * ((dpi : ℚ) / 72)))).toNat

/-- The border samples of one box (app.py:193-224): the strips directly
above, below, left and right of the padded box, clipped to the raster,
each contributing only when non-degenerate, concatenated in source order. -/
def edgeSamples (dpi : ℕ) (img : Raster) (bbox : ℚ × ℚ × ℚ × ℚ) :
    List (ℕ × ℕ × ℕ) :=
  let s := sampleSize dpi
  let r := pixelRegion dpi img.h img.w bbox
  (if r.py0 - s < r.py0 then stripPixels img (r.py0 - s) r.py0 r.px0 r.px1 else []) ++
  (if r.py1 < min img.h (r.py1 + s) then
      stripPixels img r.py1 (min img.h (r.py1 + s)) r.px0 r.px1 else []) ++
  (if r.px0 - s < r.px0 then stripPixels img r.py0 r.py1 (r.px0 - s) r.px0 else []) ++
  (if r.px1 < min img.w (r.px1 + s) then
      stripPixels img r.py0 r.py1 r.px1 (min img.w (r.px1 + s)) else [])

/-- Estimated fill for one box (app.py:226-232): per-channel median of the
border samples, or solid white when nothing was sampleable. -/
def eraseFillColor (dpi : ℕ) (img : Raster) (bbox : ℚ × ℚ × ℚ × ℚ) :
    ℕ × ℕ × ℕ :=
  if edgeSamples dpi img bbox = [] then (255, 255, 255)
  else medianRGB (edgeSamples dpi img bbox)

/-- One iteration of the erase loop (app.py:178-234): skip a degenerate
region, otherwise overwrite the padded rectangle with the estimated fill. -/
def eraseOne (dpi : ℕ) (img : Raster) (bbox : ℚ × ℚ × ℚ × ℚ) : Raster :=
  let r := pixelRegion dpi img.h img.w bbox
  if r.px1 ≤ r.px0 ∨ r.py1 ≤ r.py0 then img
  else
    ⟨img.h, img.w, fun i j =>
      if r.py0 ≤ i ∧ i < r.py1 ∧ r.px0 ≤ j ∧ j < r.px1
      then eraseFillColor dpi img bbox else img.pix i j⟩

/-- The erase phase of `render_page_without_text` under numpy: the boxes are
processed sequentially, each sampling the raster already modified by its
predecessors. -/
def eraseBoxes (dpi : ℕ) (img : Raster) (boxes : List (ℚ × ℚ × ℚ × ℚ)) :
    Raster :=
  boxes.foldl (eraseOne dpi) img

/-- Pixel `(i, j)` lies in the (non-degenerate) padded fill rectangle of
`bbox`. -/
def inFillRegion (dpi h w : ℕ) (bbox : ℚ × ℚ × ℚ × ℚ) (i j : ℕ) : Prop :=
  (pixelRegion dpi h w bbox).py0 ≤ i ∧ i < (pixelRegion dpi h w bbox).py1 ∧
  (pixelRegion dpi h w bbox).px0 ≤ j ∧ j < (pixelRegion dpi h w bbox).px1

/-- A box either has a degenerate (skipped) region or at least one border
pixel inside the raster to sample from. -/
def sampleableOrSkipped (dpi h w : ℕ) (bbox : ℚ × ℚ × ℚ × ℚ) : Prop :=
  (pixelRegion dpi h w bbox).px1 ≤ (pixelRegion dpi h w bbox).px0 ∨
  (pixelRegion dpi h w bbox).py1 ≤ (pixelRegion dpi h w bbox).py0 ∨
  0 < (pixelRegion dpi h w bbox).py0 ∨ (pixelRegion dpi h w bbox).py1 < h ∨
  0 < (pixelRegion dpi h w bbox).px0 ∨ (pixelRegion dpi h w bbox).px1 < w

instance inFillRegion.dec (dpi h w : ℕ) (b : ℚ × ℚ × ℚ × ℚ) (i j : ℕ) :
    Decidable (inFillRegion dpi h w b i j) := by
  unfold inFillRegion; infer_instance

instance sampleableOrSkipped.dec (dpi h w : ℕ) (b : ℚ × ℚ × ℚ × ℚ) :
    Decidable (sampleableOrSkipped dpi h w b) := by
  unfold sampleableOrSkipped; infer_instance

lemma eraseOne_h (dpi : ℕ) (img : Raster) (b : ℚ × ℚ × ℚ × ℚ) :
    (eraseOne dpi img b).h = img.h := by
  simp only [eraseOne]
  split <;> rfl

lemma eraseOne_w (dpi : ℕ) (img : Raster) (b : ℚ × ℚ × ℚ × ℚ) :
    (eraseOne dpi img b).w = img.w := by
  simp only [eraseOne]
  split <;> rfl

lemma eraseBoxes_cons (dpi : ℕ) (img : Raster) (b : ℚ × ℚ × ℚ × ℚ)
    (bs : List (ℚ × ℚ × ℚ × ℚ)) :
    eraseBoxes dpi img (b :: bs) = eraseBoxes dpi (eraseOne dpi img b) bs := rfl

lemma eraseBoxes_h (dpi : ℕ) :
    ∀ (boxes : List (ℚ × ℚ × ℚ × ℚ)) (img : Raster),
      (eraseBoxes dpi img boxes).h = img.h
  | [], _ => rfl
  | b :: bs, img => by rw [eraseBoxes_cons, eraseBoxes_h dpi bs, eraseOne_h]

lemma eraseBoxes_w (dpi : ℕ) :
    ∀ (boxes : List (ℚ × ℚ × ℚ × ℚ)) (img : Raster),
      (eraseBoxes dpi img boxes).w = img.w
  | [], _ => rfl
  | b :: bs, img => by rw [eraseBoxes_cons, eraseBoxes_w dpi bs, eraseOne_w]

lemma mem_stripPixels {img : Raster} {r0 r1 c0 c1 : ℕ} {x : ℕ × ℕ × ℕ}
    (hx : x ∈ stripPixels img r0 r1 c0 c1) : ∃ i j, x = img.pix i j := by
  rcases List.mem_flatten.mp hx with ⟨row, hrow, hxr⟩
  rcases List.mem_map.mp hrow with ⟨i, -, rfl⟩
  rcases List.mem_map.mp hxr with ⟨j, -, rfl⟩
  exact ⟨_, _, rfl⟩

lemma stripPixels_ne_nil {img : Raster} {r0 r1 c0 c1 : ℕ}
    (h1 : r0 < r1) (h2 : c0 < c1) : stripPixels img r0 r1 c0 c1 ≠ [] := by
  intro h
  rw [stripPixels, List.flatten_eq_nil_iff] at h
  have h0 : (List.range (c1 - c0)).map (fun j => img.pix (r0 + 0) (c0 + j)) = [] :=
    h _ (List.mem_map_of_mem _ (List.mem_range.mpr (by omega)))
  rw [List.map_eq_nil_iff, List.range_eq_nil] at h0
  omega

lemma insertSorted_length (x : ℕ) :
    ∀ l : List ℕ, (insertSorted x l).length = l.length + 1
  | [] => rfl
  | y :: ys => by
    unfold insertSorted
    split
    · rfl
    · simp [insertSorted_length x ys]

lemma mem_insertSorted {x z : ℕ} :
    ∀ {l : List ℕ}, z ∈ insertSorted x l → z = x ∨ z ∈ l
  | [], h => by
    simp only [insertSorted, List.mem_singleton] at h
    exact Or.inl h
  | y :: ys, h => by
    unfold insertSorted at h
    split at h
    · rcases List.mem_cons.mp h with h | h
      · exact Or.inl h
      · exact Or.inr h
    · rcases List.mem_cons.mp h with h | h
      · exact Or.inr (h ▸ List.mem_cons_self _ _)
      · rcases mem_insertSorted h with h | h
        · exact Or.inl h
        · exact Or.inr (List.mem_cons_of_mem _ h)

lemma sortAsc_length : ∀ l : List ℕ, (sortAsc l).length = l.length
  | [] => rfl
  | x :: xs => by
    rw [sortAsc, insertSorted_length, sortAsc_length xs]
    rfl

lemma mem_sortAsc {z : ℕ} : ∀ {l : List ℕ}, z ∈ sortAsc l → z ∈ l
  | [], h => h
  | x :: xs, h => by
    rw [sortAsc] at h
    rcases mem_insertSorted h with rfl | h
    · exact List.mem_cons_self _ _
    · exact List.mem_cons_of_mem _ (mem_sortAsc h)

lemma getD_mem {l : List ℕ} {n : ℕ} (h : n < l.length) : l.getD n 0 ∈ l := by
  rw [List.getD_eq_getElem?_getD, List.getElem?_eq_getElem h]
  simpa using List.getElem_mem h

lemma medChan_const {l : List ℕ} {c : ℕ} (hne : l ≠ [])
    (hall : ∀ x ∈ l, x = c) : medChan l = c := by
  have hpos : 0 < l.length := List.length_pos.mpr hne
  have hget : ∀ n, n < l.length → (sortAsc l).getD n 0 = c := by
    intro n hn
    exact hall _ (mem_sortAsc (getD_mem (by rw [sortAsc_length]; exact hn)))
  unfold medChan
  split
  · exact hget _ (by omega)
  · rw [hget _ (by omega), hget _ (by omega)]
    omega

lemma medianRGB_const {l : List (ℕ × ℕ × ℕ)} {c : ℕ × ℕ × ℕ} (hne : l ≠ [])
    (hall : ∀ x ∈ l, x = c) : medianRGB l = c := by
  have hmap : ∀ f : ℕ × ℕ × ℕ → ℕ, medChan (l.map f) = f c := by
    intro f
    refine medChan_const (fun h => hne (List.map_eq_nil_iff.mp h)) ?_
    intro x hx
    rcases List.mem_map.mp hx with ⟨y, hy, rfl⟩
    rw [hall y hy]
  show (medChan (l.map (·.1)), medChan (l.map (·.2.1)), medChan (l.map (·.2.2))) = c
  rw [hmap, hmap, hmap]

lemma mem_of_mem_ite_nil {α : Type} {c : Prop} {inst : Decidable c}
    {l : List α} {x : α} (h : x ∈ (if c then l else [])) : x ∈ l := by
  by_cases hc : c
  · rwa [if_pos hc] at h
  · rw [if_neg hc] at h
    cases h

lemma mem_edgeSamples {dpi : ℕ} {img : Raster} {b : ℚ × ℚ × ℚ × ℚ}
    {x : ℕ × ℕ × ℕ} (hx : x ∈ edgeSamples dpi img b) :
    ∃ i j, x = img.pix i j := by
  simp only [edgeSamples, List.mem_append] at hx
  rcases hx with ((h | h) | h) | h <;>
    exact mem_stripPixels (mem_of_mem_ite_nil h)

lemma sampleSize_pos (dpi : ℕ) : 0 < sampleSize dpi := by
  unfold sampleSize
  have h3 : (3:ℤ) ≤ max 3 (pyTrunc (4 * ((dpi : ℚ) / 72))) := le_max_left _ _
  omega

lemma edgeSamples_ne_nil {dpi : ℕ} {img : Raster} {b : ℚ × ℚ × ℚ × ℚ}
    (hx : (pixelRegion dpi img.h img.w b).px0 < (pixelRegion dpi img.h img.w b).px1)
    (hy : (pixelRegion dpi img.h img.w b).py0 < (pixelRegion dpi img.h img.w b).py1)
    (hs : 0 < (pixelRegion dpi img.h img.w b).py0 ∨
          (pixelRegion dpi img.h img.w b).py1 < img.h ∨
          0 < (pixelRegion dpi img.h img.w b).px0 ∨
          (pixelRegion dpi img.h img.w b).px1 < img.w) :
    edgeSamples dpi img b ≠ [] := by
  intro hnil
  simp only [edgeSamples] at hnil
  simp only [List.append_eq_nil] at hnil
  obtain ⟨⟨⟨ht, hb2⟩, hl⟩, hr⟩ := hnil
  have hspos := sampleSize_pos dpi
  rcases hs with hs | hs | hs | hs
  · have hcond : (pixelRegion dpi img.h img.w b).py0 - sampleSize dpi <
        (pixelRegion dpi img.h img.w b).py0 := by omega
    rw [if_pos hcond] at ht
    exact stripPixels_ne_nil hcond hx ht
  · have hcond : (pixelRegion dpi img.h img.w b).py1 <
        min img.h ((pixelRegion dpi img.h img.w b).py1 + sampleSize dpi) := by omega
    rw [if_pos hcond] at hb2
    exact stripPixels_ne_nil hcond hx hb2
  · have hcond : (pixelRegion dpi img.h img.w b).px0 - sampleSize dpi <
        (pixelRegion dpi img.h img.w b).px0 := by omega
    rw [if_pos hcond] at hl
    exact stripPixels_ne_nil hy hcond hl
  · have hcond : (pixelRegion dpi img.h img.w b).px1 <
        min img.w ((pixelRegion dpi img.h img.w b).px1 + sampleSize dpi) := by omega
    rw [if_pos hcond] at hr
    exact stripPixels_ne_nil hy hcond hr

lemma eraseOne_pix_inRegion {dpi : ℕ} {img : Raster} {b : ℚ × ℚ × ℚ × ℚ}
    {i j : ℕ} (hin : inFillRegion dpi img.h img.w b i j) :
    (eraseOne dpi img b).pix i j = eraseFillColor dpi img b := by
  obtain ⟨h1, h2, h3, h4⟩ := hin
  simp only [eraseOne]
  rw [if_neg (by omega)]
  show (if _ ∧ _ ∧ _ ∧ _ then eraseFillColor dpi img b else img.pix i j) = _
  rw [if_pos ⟨h1, h2, h3, h4⟩]

lemma eraseOne_uniform {dpi : ℕ} {img : Raster} {col : ℕ × ℕ × ℕ}
    (hcol : ∀ i j, img.pix i j = col) {b : ℚ × ℚ × ℚ × ℚ}
    (hb : sampleableOrSkipped dpi img.h img.w b) (i j : ℕ) :
    (eraseOne dpi img b).pix i j = col := by
  simp only [eraseOne]
  split
  · exact hcol i j
  · rename_i hskip
    show (if _ ∧ _ ∧ _ ∧ _ then eraseFillColor dpi img b else img.pix i j) = col
    split
    · have hx : (pixelRegion dpi img.h img.w b).px0 <
          (pixelRegion dpi img.h img.w b).px1 := by omega
      have hy : (pixelRegion dpi img.h img.w b).py0 <
          (pixelRegion dpi img.h img.w b).py1 := by omega
      have hs : 0 < (pixelRegion dpi img.h img.w b).py0 ∨
          (pixelRegion dpi img.h img.w b).py1 < img.h ∨
          0 < (pixelRegion dpi img.h img.w b).px0 ∨
          (pixelRegion dpi img.h img.w b).px1 < img.w := by
        rcases hb with hb | hb | hb | hb | hb | hb
        · omega
        · omega
        · exact Or.inl hb
        · exact Or.inr (Or.inl hb)
        · exact Or.inr (Or.inr (Or.inl hb))
        · exact Or.inr (Or.inr (Or.inr hb))
      have hne := edgeSamples_ne_nil hx hy hs
      have hall : ∀ x ∈ edgeSamples dpi img b, x = col := by
        intro x hx'
        rcases mem_edgeSamples hx' with ⟨i', j', rfl⟩
        exact hcol i' j'
      rw [eraseFillColor, if_neg hne]
      exact medianRGB_const hne hall
    · exact hcol i j

lemma eraseBoxes_uniform {dpi : ℕ} {col : ℕ × ℕ × ℕ} :
    ∀ (boxes : List (ℚ × ℚ × ℚ × ℚ)) (img : Raster),
      (∀ i j, img.pix i j = col) →
      (∀ b ∈ boxes, sampleableOrSkipped dpi img.h img.w b) →
      ∀ i j, (eraseBoxes dpi img boxes).pix i j = col
  | [], _, hcol, _, i, j => hcol i j
  | b :: bs, img, hcol, hball, i, j => by
    rw [eraseBoxes_cons]
    refine eraseBoxes_uniform bs _ ?_ ?_ i j
    · exact fun i' j' => eraseOne_uniform hcol (hball b (List.mem_cons_self _ _)) i' j'
    · intro b' hb'
      rw [eraseOne_h, eraseOne_w]
      exact hball b' (List.mem_cons_of_mem _ hb')

/-- Claim C3 (amended): erasure is order-dependent in general — each box's
fill is sampled from the raster already modified by the boxes before it.
What does hold is the sequential last-write-wins semantics: after erasing
`boxes ++ [b]`, every pixel of `b`'s padded rectangle carries exactly the
fill color estimated for `b` on the raster produced by erasing `boxes`. -/
theorem claim_C3_sequential_last_write (dpi : ℕ) (img : Raster)
    (boxes : List (ℚ × ℚ × ℚ × ℚ)) (b : ℚ × ℚ × ℚ × ℚ) (i j : ℕ)
    (hin : inFillRegion dpi img.h img.w b i j) :
    (eraseBoxes dpi img (boxes ++ [b])).pix i j =
      eraseFillColor dpi (eraseBoxes dpi img boxes) b := by
  have hstep : eraseBoxes dpi img (boxes ++ [b]) =
      eraseOne dpi (eraseBoxes dpi img boxes) b := by
    rw [eraseBoxes, List.foldl_append]
    rfl
  rw [hstep]
  apply eraseOne_pix_inRegion
  rwa [eraseBoxes_h, eraseBoxes_w]

/-- Witness for C3: the last-write-wins statement applied to a single box on
a uniform raster. -/
theorem claim_C3_witness :
    inFillRegion 72 (uniformRaster 10 10 (7, 7, 7)).h
      (uniformRaster 10 10 (7, 7, 7)).w (2, 2, 5, 5) 3 3 ∧
    (eraseBoxes 72 (uniformRaster 10 10 (7, 7, 7)) ([] ++ [(2, 2, 5, 5)])).pix 3 3 =
      eraseFillColor 72 (eraseBoxes 72 (uniformRaster 10 10 (7, 7, 7)) []) (2, 2, 5, 5) :=
  ⟨by with_unfolding_all decide,
   claim_C3_sequential_last_write 72 _ [] _ 3 3 (by with_unfolding_all decide)⟩

/-- A 24×24 raster, black except for a white frame around the region
`[9,17)²` (the padded rectangle of `c3boxA`). -/
def c3base : Raster :=
  ⟨24, 24, fun i j =>
    if 5 ≤ i ∧ i < 21 ∧ 5 ≤ j ∧ j < 21 ∧ ¬(9 ≤ i ∧ i < 17 ∧ 9 ≤ j ∧ j < 17)
    then (255, 255, 255) else (0, 0, 0)⟩

def c3boxA : ℚ × ℚ × ℚ × ℚ := (10, 10, 16, 16)

def c3boxB : ℚ × ℚ × ℚ × ℚ := (15, 12, 17, 14)

set_option maxRecDepth 40000 in
/-- Counterexample for C3 as stated: erasing the same two boxes in the two
possible orders yields different rasters, because `c3boxB`'s border strips
overlap the rectangle that `c3boxA` fills — the order of processing changes
the sampled median. -/
theorem claim_C3_counterexample :
    (eraseBoxes 72 c3base [c3boxA, c3boxB]).pix 13 17 ≠
      (eraseBoxes 72 c3base [c3boxB, c3boxA]).pix 13 17 := by
  with_unfolding_all decide

/-- Claim C4 (amended): inside a non-degenerate padded box the written fill
is the per-channel median of the border samples when at least one border
pixel was sampleable, and solid white otherwise; consequently a fully
uniform raster is left pixel-for-pixel unchanged by erasing any list of
boxes each of which is degenerate or has a sampleable border — every such
box is filled with exactly the uniform color. -/
theorem claim_C4_fill_estimation :
    (∀ (dpi : ℕ) (img : Raster) (b : ℚ × ℚ × ℚ × ℚ) (i j : ℕ),
        inFillRegion dpi img.h img.w b i j →
        (eraseOne dpi img b).pix i j =
          (if edgeSamples dpi img b = [] then ((255, 255, 255) : ℕ × ℕ × ℕ)
           else medianRGB (edgeSamples dpi img b))) ∧
    (∀ (dpi hgt wid : ℕ) (col : ℕ × ℕ × ℕ) (boxes : List (ℚ × ℚ × ℚ × ℚ)),
        (∀ b ∈ boxes, sampleableOrSkipped dpi hgt wid b) →
        ∀ i j, (eraseBoxes dpi (uniformRaster hgt wid col) boxes).pix i j = col) := by
  constructor
  · intro dpi img b i j hin
    rw [eraseOne_pix_inRegion hin, eraseFillColor]
  · intro dpi hgt wid col boxes hball i j
    exact eraseBoxes_uniform boxes _ (fun _ _ => rfl) hball i j

/-- Witness for C4: both parts applied to a concrete interior box on
concrete uniform rasters. -/
theorem claim_C4_witness :
    (inFillRegion 72 (uniformRaster 10 10 (9, 9, 9)).h
        (uniformRaster 10 10 (9, 9, 9)).w (3, 3, 6, 6) 4 4 ∧
      (eraseOne 72 (uniformRaster 10 10 (9, 9, 9)) (3, 3, 6, 6)).pix 4 4 =
        (if edgeSamples 72 (uniformRaster 10 10 (9, 9, 9)) (3, 3, 6, 6) = []
         then ((255, 255, 255) : ℕ × ℕ × ℕ)
         else medianRGB (edgeSamples 72 (uniformRaster 10 10 (9, 9, 9)) (3, 3, 6, 6)))) ∧
    ((∀ b ∈ [((3:ℚ), (3:ℚ), (6:ℚ), (6:ℚ))], sampleableOrSkipped 72 10 10 b) ∧
      (eraseBoxes 72 (uniformRaster 10 10 (1, 2, 3)) [(3, 3, 6, 6)]).pix 4 4 = (1, 2, 3)) :=
  ⟨⟨by with_unfolding_all decide,
    claim_C4_fill_estimation.1 72 _ _ 4 4 (by with_unfolding_all decide)⟩,
   ⟨by with_unfolding_all decide,
    claim_C4_fill_estimation.2 72 10 10 (1, 2, 3) _ (by with_unfolding_all decide) 4 4⟩⟩

/-- Counterexample for C4 as stated: on a fully uniform mid-gray raster, a
text box whose padded rectangle covers the whole raster has no sampleable
border pixel, so it is filled solid white — not with the uniform color. -/
theorem claim_C4_counterexample :
    (eraseBoxes 72 (uniformRaster 4 4 (128, 128, 128)) [(0, 0, 4, 4)]).pix 1 1 =
      (255, 255, 255) ∧ ((255, 255, 255) : ℕ × ℕ × ℕ) ≠ (128, 128, 128) :=
  ⟨by with_unfolding_all decide, by decide⟩

/-! ### OCR word grouping (app.py:283-311 and app.py:592-609) -/

/-- One word-level result of `pytesseract.image_to_data`: text, confidence
(0–100, or -1 for non-word rows) and pixel geometry, with the
`(block_num, par_num, line_num)` grouping indices. -/
structure OcrWord where
  text : List Char
  conf : ℤ
  block : ℕ
  par : ℕ
  line : ℕ
  left : ℕ
  top : ℕ
  width : ℕ
  height : ℕ
deriving DecidableEq

/-- Accumulated state of one `(block, par, line)` entry of `lines`. -/
structure LineAcc where
  words : List (List Char)
  left : ℕ
  top : ℕ
  right : ℕ
  bottom : ℕ
  height : ℕ
deriving DecidableEq

/-- Point update of an insertion-ordered association list (mutating an
existing Python dict entry keeps its position). -/
def updateAt (k : ℕ × ℕ × ℕ) (f : LineAcc → LineAcc) :
    List ((ℕ × ℕ × ℕ) × LineAcc) → List ((ℕ × ℕ × ℕ) × LineAcc)
  | [] => []
  | (k', v) :: rest =>
      if k' = k then (k', f v) :: rest else (k', v) :: updateAt k f rest

/-- `key in lines` / `lines[key]` lookup. -/
def lookupKey (k : ℕ × ℕ × ℕ) :
    List ((ℕ × ℕ × ℕ) × LineAcc) → Option LineAcc
  | [] => none
  | (k', v) :: rest => if k' = k then some v else lookupKey k rest

/-- One iteration of the grouping loop (app.py:285-305): blank words and
words with confidence < 30 are skipped; the first word of a key creates the
entry from its own geometry; later words only push `right`, `bottom` and
`height` up by `max` (`left` and `top` are never revisited); every
surviving word's text is appended in arrival order. -/
def ocrStep (acc : List ((ℕ × ℕ × ℕ) × LineAcc)) (w : OcrWord) :
    List ((ℕ × ℕ × ℕ) × LineAcc) :=
  if pyStrip w.text = [] then acc
  else if w.conf < 30 then acc
  else
    let k := (w.block, w.par, w.line)
    let acc1 :=
      match lookupKey k acc with
      | none =>
          acc ++ [(k, { words := [], left := w.left, top := w.top,
                        right := w.left + w.width, bottom := w.top + w.height,
                        height := w.height })]
      | some _ =>
          updateAt k (fun la =>
            { la with right := max la.right (w.left + w.width),
                      bottom := max la.bottom (w.top + w.height),
                      height := max la.height w.height }) acc
    updateAt k (fun la => { la with words := la.words ++ [w.text] }) acc1

/-- The whole grouping loop over the recognizer's word list. -/
def ocrGroupLines (ws : List OcrWord) : List ((ℕ × ℕ × ℕ) × LineAcc) :=
  ws.foldl ocrStep []

lemma ocrStep_low_conf (acc : List ((ℕ × ℕ × ℕ) × LineAcc)) (w : OcrWord)
    (hw : w.conf < 30) : ocrStep acc w = acc := by
  simp [ocrStep, hw]

/-- Claim C6 (amended): two surviving words with the same
`(block, paragraph, line)` key merge into one line whose box keeps the
FIRST word's `left`/`top` and takes the maximum of the two `right`/`bottom`
edges (this equals the rectangle union only when the first word attains the
minimum left and top); the text is the order-preserving space join; and any
word with confidence below 30 is discarded before grouping. -/
theorem claim_C6_line_merge (w1 w2 : OcrWord)
    (hk : (w2.block, w2.par, w2.line) = (w1.block, w1.par, w1.line))
    (ht1 : pyStrip w1.text ≠ []) (ht2 : pyStrip w2.text ≠ [])
    (hc1 : ¬ w1.conf < 30) (hc2 : ¬ w2.conf < 30) :
    ocrGroupLines [w1, w2] =
      [((w1.block, w1.par, w1.line),
        { words := [w1.text, w2.text], left := w1.left, top := w1.top,
          right := max (w1.left + w1.width) (w2.left + w2.width),
          bottom := max (w1.top + w1.height) (w2.top + w2.height),
          height := max w1.height w2.height })] ∧
    List.intercalate (str " ") [w1.text, w2.text] = w1.text ++ ' ' :: w2.text ∧
    (∀ (acc : List ((ℕ × ℕ × ℕ) × LineAcc)) (w : OcrWord), w.conf < 30 →
        ocrStep acc w = acc) := by
  refine ⟨?_, ?_, fun acc w hw => ocrStep_low_conf acc w hw⟩
  · have h1 : ocrStep [] w1 =
        [((w1.block, w1.par, w1.line),
          { words := [w1.text], left := w1.left, top := w1.top,
            right := w1.left + w1.width, bottom := w1.top + w1.height,
            height := w1.height })] := by
      rw [ocrStep, if_neg ht1, if_neg hc1]
      simp [lookupKey, updateAt]
    show ocrStep (ocrStep [] w1) w2 = _
    rw [h1, ocrStep, if_neg ht2, if_neg hc2]
    simp only [hk, lookupKey, updateAt, if_pos rfl]
    simp
  · simp [List.intercalate, str, List.intersperse]

def c6w1 : OcrWord := ⟨str "Hello", 90, 1, 1, 1, 50, 50, 10, 10⟩

def c6w2 : OcrWord := ⟨str "World", 90, 1, 1, 1, 10, 10, 10, 10⟩

/-- Counterexample for C6 as stated: when the second word of a key lies
left of / above the first, the merged line's box keeps the first word's
`left`/`top` (50, 50) — not the rectangle-union corner (10, 10). -/
theorem claim_C6_counterexample :
    (ocrGroupLines [c6w1, c6w2]).map (fun kv => (kv.2.left, kv.2.top)) =
      [(50, 50)] ∧
    (min c6w1.left c6w2.left, min c6w1.top c6w2.top) ≠ ((50 : ℕ), (50 : ℕ)) :=
  ⟨by with_unfolding_all decide, by decide⟩

/-- Witness for C6: the merge statement applied to two concrete words on
one line. -/
theorem claim_C6_witness :
    ocrGroupLines [⟨str "ab", 95, 2, 0, 3, 5, 7, 11, 13⟩,
                   ⟨str "cd", 80, 2, 0, 3, 20, 6, 9, 15⟩] =
      [((2, 0, 3),
        { words := [str "ab", str "cd"], left := 5, top := 7,
          right := max (5 + 11) (20 + 9), bottom := max (7 + 13) (6 + 15),
          height := max 13 15 })] :=
  (claim_C6_line_merge ⟨str "ab", 95, 2, 0, 3, 5, 7, 11, 13⟩
    ⟨str "cd", 80, 2, 0, 3, 20, 6, 9, 15⟩ rfl (by decide) (by decide)
    (by decide) (by decide)).1

/-! ### Edit-mode conversion pipeline (app.py:406-558) -/

/-- One span of the structural text dict. -/
structure Span where
  text : List Char
  size : ℚ
  color : ℕ
  flags : ℕ
  font : List Char
deriving DecidableEq

/-- One line of a structural text block. -/
structure TextLine where
  spans : List Span
deriving DecidableEq

/-- One entry of `page.get_text("dict")["blocks"]`: `type` 0 is a text
block, 1 an image block. -/
structure PBlock where
  btype : ℕ
  bbox : ℚ × ℚ × ℚ × ℚ
  lines : List TextLine
deriving DecidableEq

/-- A page as the pipeline reads it: point-unit geometry, the raw text-dict
blocks, and the word list the recognizer would return for its raster
(`none` models both `image_to_data` attempts raising). -/
structure PageModel where
  width : ℚ
  height : ℚ
  blocks : List PBlock
  ocrData : Option (List OcrWord)
deriving DecidableEq

/-- How a slide's background picture was produced: the text-erased render
of `render_page_without_text` over the given boxes, or the untouched
full-page render of `render_page_image`, both at the given dpi. -/
inductive BgContent
  | erased (dpi : ℕ) (boxes : List (ℚ × ℚ × ℚ × ℚ))
  | plain (dpi : ℕ)
deriving DecidableEq

/-- One text run and its mapped style (`font` is `none` when the code never
assigns a family, as for OCR runs; unset bold/italic are modeled `false`). -/
structure RunOut where
  text : List Char
  sizePt : ℚ
  color : ℕ × ℕ × ℕ
  bold : Bool
  italic : Bool
  font : Option (List Char)
deriving DecidableEq

/-- A shape added to a slide, in order of addition. -/
inductive Shape
  | picture (left top w h : ℤ) (content : BgContent)
  | textbox (left top w h : ℤ) (transparent : Bool) (paras : List (List RunOut))
deriving DecidableEq

def isPictureShape : Shape → Bool
  | .picture _ _ _ _ _ => true
  | .textbox _ _ _ _ _ _ => false

def shapeTextboxWidth : Shape → Option ℤ
  | .picture _ _ _ _ _ => none
  | .textbox _ _ w _ _ _ => some w

/-- Concatenated span text of one block (app.py:443-447). -/
def blockText (b : PBlock) : List Char :=
  ((b.lines.map (fun l => (l.spans.map (·.text)).flatten))).flatten

/-- STEP 1 filter (app.py:440-448): keep the type-0 blocks whose
concatenated text is non-blank after stripping. -/
def textBlocksOf (p : PageModel) : List PBlock :=
  p.blocks.filter (fun b => decide (b.btype = 0 ∧ pyStrip (blockText b) ≠ []))

/-- `use_ocr` (app.py:450): fall back to recognition iff no structural text
block survived. -/
def useOcr (p : PageModel) : Bool := (textBlocksOf p).isEmpty

/-- `x_scale` / `y_scale` (app.py:433-434): slide EMU size over page size. -/
def pageScale (slideEmu : ℤ) (pageDim : ℚ) : ℚ := (slideEmu : ℚ) / pageDim

/-- `_get_ocr_bboxes` (app.py:561-623): the same grouping loop (its `lines`
entries carry no `words`/`height`, which does not change the tracked box
edges), mapped back to PDF points at the hardwired OCR dpi 200 — the `dpi`
argument is ignored by the source — and kept only when wider and taller
than 1 point. -/
def _get_ocr_bboxes (ocrAvail : Bool) (ocrData : Option (List OcrWord))
    (dpi : ℕ) : List (ℚ × ℚ × ℚ × ℚ) :=
  if ocrAvail = false then []
  else
    match ocrData with
    | none => []
    | some ws =>
        let zoom : ℚ := (200 : ℚ) / 72
        (ocrGroupLines ws).filterMap (fun kv =>
          let x0 : ℚ := (kv.2.left : ℚ) / zoom
          let y0 : ℚ := (kv.2.top : ℚ) / zoom
          let x1 : ℚ := (kv.2.right : ℚ) / zoom
          let y1 : ℚ := (kv.2.bottom : ℚ) / zoom
          if x1 - x0 > 1 ∧ y1 - y0 > 1 then some (x0, y0, x1, y1) else none)

/-- Loop body of `ocr_page_to_textboxes` for one grouped line
(app.py:310-363): blank joined text or a mapped box under the
10000×5000 EMU minimum is skipped; a kept line yields its PDF-point bbox
and a textbox at the mapped position, the mapped size plus the fixed
100000/50000 EMU slack, with one black run sized at 70 % of the line
height (floored at 6 pt). -/
def ocrLineOut (x_scale y_scale : ℚ) (ocr_dpi : ℕ) (transparent_bg : Bool)
    (la : LineAcc) : Option ((ℚ × ℚ × ℚ × ℚ) × Shape) :=
  let zoom : ℚ := (ocr_dpi : ℚ) / 72
  let line_text := pyStrip (List.intercalate (str " ") la.words)
  if line_text = [] then none
  else
    let x0 : ℚ := (la.left : ℚ) / zoom
    let y0 : ℚ := (la.top : ℚ) / zoom
    let w : ℚ := ((la.right : ℚ) - (la.left : ℚ)) / zoom
    let h : ℚ := ((la.bottom : ℚ) - (la.top : ℚ)) / zoom
    let left_emu := pyTrunc (x0 * x_scale)
    let top_emu := pyTrunc (y0 * y_scale)
    let w_emu := pyTrunc (w * x_scale)
    let h_emu := pyTrunc (h * y_scale)
    if w_emu < 10000 ∨ h_emu < 5000 then none
    else
      some ((x0, y0, x0 + w, y0 + h),
        .textbox left_emu top_emu (w_emu + 100000) (h_emu + 50000) transparent_bg
          [[{ text := line_text, sizePt := max 6 (((la.height : ℚ) / zoom) * (7/10)),
              color := (0, 0, 0), bold := false, italic := false, font := none }]])

/-- `ocr_page_to_textboxes` (app.py:250-363): number of boxes added, their
PDF-point bboxes, and the textbox shapes added to the slide. Returns
nothing when the OCR imports are missing or both recognizer calls raise. -/
def ocr_page_to_textboxes (ocrAvail : Bool) (ocrData : Option (List OcrWord))
    (x_scale y_scale : ℚ) (ocr_dpi : ℕ) (transparent_bg : Bool) :
    ℕ × List (ℚ × ℚ × ℚ × ℚ) × List Shape :=
  if ocrAvail = false then (0, [], [])
  else
    match ocrData with
    | none => (0, [], [])
    | some ws =>
        let outs := (ocrGroupLines ws).filterMap
          (fun kv => ocrLineOut x_scale y_scale ocr_dpi transparent_bg kv.2)
        (outs.length, outs.map (·.1), outs.map (·.2))

/-- `block_bboxes_for_render` (app.py:452-463). -/
def blockBboxesForRender (ocrAvail : Bool) (dpi : ℕ) (p : PageModel) :
    List (ℚ × ℚ × ℚ × ℚ) :=
  if useOcr p then _get_ocr_bboxes ocrAvail p.ocrData dpi
  else (textBlocksOf p).map (·.bbox)

/-- Style mapping of one span (app.py:531-549): empty-text spans add no
run; size is floored at 1 pt, color unpacked from the packed integer, bold
is flag bit 16, italic flag bit 2, and the font family is the cleaned raw
name. -/
def spanRun (s : Span) : Option RunOut :=
  if s.text = [] then none
  else some
    { text := s.text
      sizePt := max 1 s.size
      color := color_int_to_rgb s.color
      bold := decide (s.flags &&& 16 ≠ 0)
      italic := decide (s.flags &&& 2 ≠ 0)
      font := some (clean_font_name s.font) }

/-- Paragraphs of a structural textbox (app.py:523-529): the first line
fills the pre-existing empty paragraph, later lines each add one. -/
def blockParas (b : PBlock) : List (List RunOut) :=
  match b.lines with
  | [] => [[]]
  | ls => ls.map (fun l => l.spans.filterMap spanRun)

/-- Structural text overlay of one block (app.py:493-551): degenerate
boxes and boxes mapping under the 5000×5000 EMU minimum are dropped; kept
boxes get the mapped position, the mapped size plus the fixed 50000 EMU
slack, a transparent background and the styled runs. -/
def structuralTextbox (x_scale y_scale : ℚ) (b : PBlock) : Option Shape :=
  let bw := b.bbox.2.2.1 - b.bbox.1
  let bh := b.bbox.2.2.2 - b.bbox.2.1
  if bw ≤ 0 ∨ bh ≤ 0 then none
  else
    let left_emu := pyTrunc (b.bbox.1 * x_scale)
    let top_emu := pyTrunc (b.bbox.2.1 * y_scale)
    let w_emu := pyTrunc (bw * x_scale)
    let h_emu := pyTrunc (bh * y_scale)
    if w_emu < 5000 ∨ h_emu < 5000 then none
    else some (.textbox left_emu top_emu (w_emu + 50000) (h_emu + 50000) true
      (blockParas b))

/-- One slide of `convert_edit_mode`'s page loop (app.py:436-551): the
background picture covering the whole slide — the text-erased render
exactly when the collected bbox list is non-empty AND numpy AND the OCR
imports are available, the plain render otherwise — followed by the text
overlays of the structural or the OCR path. Also returns the number of
textboxes placed. -/
def buildSlide (numpyAvail ocrAvail : Bool) (dpi : ℕ) (slideW slideH : ℤ)
    (p : PageModel) : List Shape × ℕ :=
  let x_scale := pageScale slideW p.width
  let y_scale := pageScale slideH p.height
  let boxes := blockBboxesForRender ocrAvail dpi p
  let bg : Shape := .picture 0 0 slideW slideH
    (if !boxes.isEmpty && numpyAvail && ocrAvail then .erased dpi boxes
     else .plain dpi)
  if useOcr p then
    let r := ocr_page_to_textboxes ocrAvail p.ocrData x_scale y_scale 200 true
    (bg :: r.2.2, r.1)
  else
    let tbs := (textBlocksOf p).filterMap (structuralTextbox x_scale y_scale)
    (bg :: tbs, tbs.length)

/-- The page loop of `convert_edit_mode`: a zero page dimension raises
`ZeroDivisionError` at the scale computation, which propagates and aborts
the remaining pages. -/
def convertPages (numpyAvail ocrAvail : Bool) (dpi : ℕ) (slideW slideH : ℤ) :
    List PageModel → Except String (List (List Shape) × ℕ)
  | [] => .ok ([], 0)
  | p :: rest =>
    if p.width = 0 ∨ p.height = 0 then
      .error "ZeroDivisionError: float division by zero"
    else
      let s := buildSlide numpyAvail ocrAvail dpi slideW slideH p
      (convertPages numpyAvail ocrAvail dpi slideW slideH rest).map
        (fun r => (s.1 :: r.1, s.2 + r.2))

/-- `convert_edit_mode` (app.py:406-558): the slide EMU size comes from the
first page (`doc[0]` raises on an empty document; 914400/72 = 12700 EMU per
point), then every page is processed in order. -/
def convert_edit_mode (numpyAvail ocrAvail : Bool) (dpi : ℕ)
    (doc : List PageModel) : Except String (List (List Shape) × ℕ) :=
  match doc with
  | [] => .error "IndexError: list index out of range"
  | p0 :: _ =>
    convertPages numpyAvail ocrAvail dpi
      (pyTrunc (p0.width * 12700)) (pyTrunc (p0.height * 12700)) doc

lemma structuralTextbox_not_picture {x_scale y_scale : ℚ} {b : PBlock}
    {s : Shape} (h : structuralTextbox x_scale y_scale b = some s) :
    isPictureShape s = false := by
  simp only [structuralTextbox] at h
  split at h
  · exact absurd h (by simp)
  · split at h
    · exact absurd h (by simp)
    · cases h
      rfl

lemma ocrLineOut_not_picture {x_scale y_scale : ℚ} {ocr_dpi : ℕ}
    {transparent_bg : Bool} {la : LineAcc} {out : (ℚ × ℚ × ℚ × ℚ) × Shape}
    (h : ocrLineOut x_scale y_scale ocr_dpi transparent_bg la = some out) :
    isPictureShape out.2 = false := by
  simp only [ocrLineOut] at h
  split at h
  · exact absurd h (by simp)
  · split at h
    · exact absurd h (by simp)
    · cases h
      rfl

lemma ocr_textboxes_no_picture (ocrAvail : Bool) (ocrData : Option (List OcrWord))
    (x_scale y_scale : ℚ) (d : ℕ) (t : Bool) :
    ((ocr_page_to_textboxes ocrAvail ocrData x_scale y_scale d t).2.2.countP
      isPictureShape) = 0 := by
  unfold ocr_page_to_textboxes
  split
  · rfl
  · cases ocrData with
    | none => rfl
    | some ws =>
      simp only
      rw [List.countP_eq_zero]
      intro s hs
      rcases List.mem_map.mp hs with ⟨out, hout, rfl⟩
      rcases List.mem_filterMap.mp hout with ⟨kv, -, hkv⟩
      simp [ocrLineOut_not_picture hkv]

lemma structural_no_picture (x_scale y_scale : ℚ) (tbs : List PBlock) :
    ((tbs.filterMap (structuralTextbox x_scale y_scale)).countP
      isPictureShape) = 0 := by
  rw [List.countP_eq_zero]
  intro s hs
  rcases List.mem_filterMap.mp hs with ⟨b, -, hb⟩
  simp [structuralTextbox_not_picture hb]

lemma buildSlide_shapes (numpyAvail ocrAvail : Bool) (dpi : ℕ)
    (slideW slideH : ℤ) (p : PageModel) :
    (buildSlide numpyAvail ocrAvail dpi slideW slideH p).1 =
      Shape.picture 0 0 slideW slideH
        (if !(blockBboxesForRender ocrAvail dpi p).isEmpty && numpyAvail && ocrAvail
         then BgContent.erased dpi (blockBboxesForRender ocrAvail dpi p)
         else BgContent.plain dpi)
      :: (if useOcr p then
            (ocr_page_to_textboxes ocrAvail p.ocrData (pageScale slideW p.width)
              (pageScale slideH p.height) 200 true).2.2
          else (textBlocksOf p).filterMap
            (structuralTextbox (pageScale slideW p.width)
              (pageScale slideH p.height))) := by
  by_cases hu : useOcr p <;> simp [buildSlide, hu]

lemma buildSlide_pictureCount (numpyAvail ocrAvail : Bool) (dpi : ℕ)
    (slideW slideH : ℤ) (p : PageModel) :
    ((buildSlide numpyAvail ocrAvail dpi slideW slideH p).1.countP
      isPictureShape) = 1 := by
  rw [buildSlide_shapes, List.countP_cons]
  split
  · rw [ocr_textboxes_no_picture]
    rfl
  · rw [structural_no_picture]
    rfl

lemma convertPages_ok (numpyAvail ocrAvail : Bool) (dpi : ℕ) (slideW slideH : ℤ) :
    ∀ doc : List PageModel, (∀ p ∈ doc, ¬(p.width = 0 ∨ p.height = 0)) →
      ∃ out, convertPages numpyAvail ocrAvail dpi slideW slideH doc = .ok out
  | [], _ => ⟨([], 0), rfl⟩
  | p :: rest, h => by
    simp only [convertPages]
    rw [if_neg (h p (List.mem_cons_self _ _))]
    rcases convertPages_ok numpyAvail ocrAvail dpi slideW slideH rest
      (fun q hq => h q (List.mem_cons_of_mem _ hq)) with ⟨out, hout⟩
    exact ⟨_, by rw [hout]; rfl⟩

lemma convertPages_error (numpyAvail ocrAvail : Bool) (dpi : ℕ) (slideW slideH : ℤ) :
    ∀ doc : List PageModel, (∃ p ∈ doc, p.width = 0 ∨ p.height = 0) →
      ∃ msg, convertPages numpyAvail ocrAvail dpi slideW slideH doc = .error msg
  | [], h => absurd h (by simp)
  | p :: rest, h => by
    simp only [convertPages]
    by_cases hp : p.width = 0 ∨ p.height = 0
    · rw [if_pos hp]
      exact ⟨_, rfl⟩
    · rw [if_neg hp]
      rcases h with ⟨q, hq, hbad⟩
      rcases List.mem_cons.mp hq with rfl | hq'
      · exact absurd hbad hp
      · rcases convertPages_error numpyAvail ocrAvail dpi slideW slideH rest
          ⟨q, hq', hbad⟩ with ⟨msg, hmsg⟩
        exact ⟨msg, by rw [hmsg]; rfl⟩

/-- Claim C7: per page, text extraction keeps exactly the type-0 blocks
whose concatenated text is non-blank after trimming, and the recognition
fallback is selected iff that filtered sequence is empty — a single
structural block with non-whitespace text suppresses recognition. -/
theorem claim_C7_structural_before_ocr :
    (∀ (p : PageModel) (b : PBlock),
        b ∈ textBlocksOf p ↔
          b ∈ p.blocks ∧ b.btype = 0 ∧ pyStrip (blockText b) ≠ []) ∧
    (∀ p : PageModel, useOcr p = true ↔ textBlocksOf p = []) ∧
    (∀ (p : PageModel) (b : PBlock), b ∈ p.blocks → b.btype = 0 →
        pyStrip (blockText b) ≠ [] → useOcr p = false) := by
  have hmem : ∀ (p : PageModel) (b : PBlock),
      b ∈ textBlocksOf p ↔
        b ∈ p.blocks ∧ b.btype = 0 ∧ pyStrip (blockText b) ≠ [] := by
    intro p b
    rw [textBlocksOf, List.mem_filter]
    simp
  have hempty : ∀ p : PageModel, useOcr p = true ↔ textBlocksOf p = [] := by
    intro p
    rw [useOcr, List.isEmpty_iff]
  refine ⟨hmem, hempty, ?_⟩
  intro p b hb h0 hne
  have hbmem : b ∈ textBlocksOf p := (hmem p b).mpr ⟨hb, h0, hne⟩
  cases hu : useOcr p
  · rfl
  · rw [(hempty p).mp hu] at hbmem
    cases hbmem

def c7page : PageModel :=
  { width := 612, height := 792,
    blocks := [{ btype := 0, bbox := (10, 10, 100, 30),
                 lines := [⟨[⟨str "Hi", 12, 0, 0, str "Arial"⟩]⟩] }],
    ocrData := none }

/-- Witness for C7: a page holding one non-blank structural block does not
invoke recognition. -/
theorem claim_C7_witness : useOcr c7page = false :=
  claim_C7_structural_before_ocr.2.2 c7page
    { btype := 0, bbox := (10, 10, 100, 30),
      lines := [⟨[⟨str "Hi", 12, 0, 0, str "Arial"⟩]⟩] }
    (by with_unfolding_all decide) rfl (by decide)

/-- Claim C2 (amended): the per-page scale factors (slide EMU size over
page dimension) are strictly positive whenever both are positive; but a
page of zero width or height is not excluded with a per-page
`DegenerateGeometry` error — the scale division raises and the whole
conversion aborts with an error, processing no further pages. -/
theorem claim_C2_scale_positivity_and_zero_dims :
    (∀ (slideEmu : ℤ) (dim : ℚ), 0 < slideEmu → 0 < dim →
        0 < pageScale slideEmu dim) ∧
    (∀ (numpyAvail ocrAvail : Bool) (dpi : ℕ) (doc : List PageModel),
        (∃ p ∈ doc, p.width = 0 ∨ p.height = 0) →
        ∃ msg, convert_edit_mode numpyAvail ocrAvail dpi doc = .error msg) := by
  constructor
  · intro slideEmu dim h1 h2
    exact div_pos (by exact_mod_cast h1) h2
  · intro numpyAvail ocrAvail dpi doc h
    cases doc with
    | nil => simp at h
    | cons p0 rest => exact convertPages_error _ _ _ _ _ _ h

def c2zero : PageModel := { width := 0, height := 100, blocks := [], ocrData := none }

/-- Witness for C2: the positivity part at letter-size numbers, and the
abort part at a one-page zero-width document. -/
theorem claim_C2_witness :
    0 < pageScale 7772400 612 ∧
    (∃ msg, convert_edit_mode true true 144 [c2zero] = .error msg) :=
  ⟨claim_C2_scale_positivity_and_zero_dims.1 7772400 612 (by norm_num) (by norm_num),
   claim_C2_scale_positivity_and_zero_dims.2 true true 144 [c2zero]
     ⟨c2zero, List.mem_cons_self _ _, Or.inl rfl⟩⟩

def c2good : PageModel := { width := 100, height := 100, blocks := [], ocrData := none }

/-- Counterexample for C2 as stated: with a zero-width middle page the
conversion does not continue and emit the two good pages — it returns the
division error for the whole document. -/
theorem claim_C2_counterexample :
    convert_edit_mode false false 144 [c2good, c2zero, c2good] =
      .error "ZeroDivisionError: float division by zero" := by
  with_unfolding_all rfl

/-- Claim C9: with the pixel-buffer (numpy) capability missing, every page
still gets exactly one background picture — the untouched full-page render
at the configured dpi — and the conversion still succeeds on any document
it would otherwise succeed on. -/
theorem claim_C9_render_fallback :
    (∀ (ocrAvail : Bool) (dpi : ℕ) (slideW slideH : ℤ) (p : PageModel),
        (buildSlide false ocrAvail dpi slideW slideH p).1.head? =
          some (Shape.picture 0 0 slideW slideH (BgContent.plain dpi))) ∧
    (∀ (ocrAvail : Bool) (dpi : ℕ) (slideW slideH : ℤ) (p : PageModel),
        ((buildSlide false ocrAvail dpi slideW slideH p).1.countP
          isPictureShape) = 1) ∧
    (∀ (ocrAvail : Bool) (dpi : ℕ) (doc : List PageModel), doc ≠ [] →
        (∀ p ∈ doc, ¬(p.width = 0 ∨ p.height = 0)) →
        ∃ out, convert_edit_mode false ocrAvail dpi doc = .ok out) := by
  refine ⟨?_, ?_, ?_⟩
  · intro ocrAvail dpi slideW slideH p
    rw [buildSlide_shapes]
    simp
  · intro ocrAvail dpi slideW slideH p
    exact buildSlide_pictureCount false ocrAvail dpi slideW slideH p
  · intro ocrAvail dpi doc hne hgood
    cases doc with
    | nil => exact absurd rfl hne
    | cons p0 rest => exact convertPages_ok _ _ _ _ _ _ hgood

def c9page : PageModel :=
  { width := 595, height := 842,
    blocks := [{ btype := 0, bbox := (20, 20, 200, 60),
                 lines := [⟨[⟨str "Fallback", 10, 0, 0, str "Times"⟩]⟩] }],
    ocrData := none }

/-- Witness for C9: a one-page document with structural text converts
successfully without numpy. -/
theorem claim_C9_witness :
    ∃ out, convert_edit_mode false true 144 [c9page] = .ok out :=
  claim_C9_render_fallback.2.2 true 144 [c9page] (by simp)
    (by with_unfolding_all decide)

/-- Claim C10: the text-erased background is used iff the collected bbox
list is non-empty AND numpy AND the OCR imports are available — in every
other combination (including structural text with only OCR missing) the
background is the plain full-page render; every slide gets exactly one
picture; and success of the conversion is independent of the capability
flags (it fails only on an empty document or a zero page dimension). -/
theorem claim_C10_erase_condition :
    (∀ (numpyAvail ocrAvail : Bool) (dpi : ℕ) (slideW slideH : ℤ) (p : PageModel),
        (buildSlide numpyAvail ocrAvail dpi slideW slideH p).1.head? =
          some (Shape.picture 0 0 slideW slideH
            (if !(blockBboxesForRender ocrAvail dpi p).isEmpty && numpyAvail && ocrAvail
             then BgContent.erased dpi (blockBboxesForRender ocrAvail dpi p)
             else BgContent.plain dpi))) ∧
    (∀ (numpyAvail ocrAvail : Bool) (dpi : ℕ) (slideW slideH : ℤ) (p : PageModel),
        ((buildSlide numpyAvail ocrAvail dpi slideW slideH p).1.countP
          isPictureShape) = 1) ∧
    (∀ (numpyAvail ocrAvail : Bool) (dpi : ℕ) (doc : List PageModel),
        (∃ out, convert_edit_mode numpyAvail ocrAvail dpi doc = .ok out) ↔
          (doc ≠ [] ∧ ∀ p ∈ doc, ¬(p.width = 0 ∨ p.height = 0))) := by
  refine ⟨?_, ?_, ?_⟩
  · intro numpyAvail ocrAvail dpi slideW slideH p
    rw [buildSlide_shapes]
    rfl
  · exact buildSlide_pictureCount
  · intro numpyAvail ocrAvail dpi doc
    constructor
    · rintro ⟨out, hout⟩
      cases doc with
      | nil =>
          have hbad : (Except.error "IndexError: list index out of range" :
              Except String (List (List Shape) × ℕ)) = .ok out := hout
          cases hbad
      | cons p0 rest =>
          refine ⟨by simp, ?_⟩
          by_contra hbadall
          push_neg at hbadall
          rcases hbadall with ⟨q, hq, hbadq⟩
          rcases convertPages_error numpyAvail ocrAvail dpi
            (pyTrunc (p0.width * 12700)) (pyTrunc (p0.height * 12700))
            (p0 :: rest) ⟨q, hq, hbadq⟩ with ⟨msg, hmsg⟩
          have hout' : convertPages numpyAvail ocrAvail dpi
              (pyTrunc (p0.width * 12700)) (pyTrunc (p0.height * 12700))
              (p0 :: rest) = .ok out := hout
          rw [hmsg] at hout'
          cases hout'
    · rintro ⟨hne, hgood⟩
      cases doc with
      | nil => exact absurd rfl hne
      | cons p0 rest => exact convertPages_ok _ _ _ _ _ _ hgood

def c10page : PageModel :=
  { width := 612, height := 792,
    blocks := [{ btype := 0, bbox := (10, 10, 200, 40),
                 lines := [⟨[⟨str "Text", 11, 0, 0, str "Helvetica"⟩]⟩] }],
    ocrData := none }

/-- Witness for C10: with numpy available but the OCR imports missing, a
page with structural text still converts, and its background is the plain
render (the erase condition is false). -/
theorem claim_C10_witness :
    ((∃ out, convert_edit_mode true false 144 [c10page] = .ok out) ↔
      ([c10page] ≠ [] ∧ ∀ p ∈ [c10page], ¬(p.width = 0 ∨ p.height = 0))) ∧
    (buildSlide true false 144 7772400 10058400 c10page).1.head? =
      some (Shape.picture 0 0 7772400 10058400
        (if !(blockBboxesForRender false 144 c10page).isEmpty && true && false
         then BgContent.erased 144 (blockBboxesForRender false 144 c10page)
         else BgContent.plain 144)) :=
  ⟨claim_C10_erase_condition.2.2 true false 144 [c10page],
   claim_C10_erase_condition.1 true false 144 7772400 10058400 c10page⟩

def c1textBlock : PBlock :=
  { btype := 0, bbox := (72, 72, 300, 100),
    lines := [⟨[⟨str "Hello World", 12, 0, 0, str "Arial"⟩]⟩] }

/-- The full-page image of the C1 scenario (100 % of the 612×792 page). -/
def c1bgImage : PBlock := { btype := 1, bbox := (0, 0, 612, 792), lines := [] }

/-- The small inline image of the C1 scenario: 160 × 151.47 pt, exactly
5 % of the page area. -/
def c1smallImage : PBlock :=
  { btype := 1, bbox := (50, 400, 210, 400 + 15147/100), lines := [] }

def c1doc : List PageModel :=
  [{ width := 612, height := 792,
     blocks := [c1bgImage, c1smallImage, c1textBlock], ocrData := none }]

set_option maxRecDepth 10000 in
/-- Claim C1 (amended): for the scenario document — one page carrying a
full-page image block, a small 5 % image block and one non-empty text
block — edit mode emits exactly one background picture (the text-erased
full-page render: both images stay baked into it and no separate
discrete-image overlay exists) plus exactly one transparent text overlay at
the block's bbox mapped through the page scale (x = y = 12700 EMU/pt here),
with the fixed 50000 EMU slack added to the mapped size. -/
theorem claim_C1_scenario_output (dpi : ℕ) :
    convert_edit_mode true true dpi c1doc =
      .ok ([[Shape.picture 0 0 7772400 10058400
              (BgContent.erased dpi [(72, 72, 300, 100)]),
            Shape.textbox 914400 914400 2945600 405600 true
              [[{ text := str "Hello World", sizePt := 12, color := (0, 0, 0),
                  bold := false, italic := false,
                  font := some (str "Arial") }]]]], 1) := by
  with_unfolding_all rfl

set_option maxRecDepth 10000 in
/-- Counterexample for C1 as stated: the scenario's output slide contains
exactly ONE picture shape, so there is no discrete-image overlay for the
small image (edit mode never places pictures besides the background;
`is_background_image` has no caller), and the text overlay's width is the
mapped bbox width plus the 50000 EMU slack rather than the mapped width
itself. -/
theorem claim_C1_counterexample :
    (convert_edit_mode true true 144 c1doc).toOption.map
        (fun r => r.1.map (fun s => s.countP isPictureShape)) = some [1] ∧
    (convert_edit_mode true true 144 c1doc).toOption.map
        (fun r => r.1.map (fun s => s.countP
          (fun sh => decide (shapeTextboxWidth sh =
            some (pyTrunc ((300 - 72) * pageScale 7772400 612)))))) =
      some [0] := by
  constructor <;> with_unfolding_all decide

end PdfToPptx
